import Mathlib

/-
Shallow embedding of the Ouroboros proof-of-stake engine core of this
repository: src/ethcore/src/engines/ouroboros/fts.rs (Follow-the-Satoshi
leader election), pvss_secret.rs (PVSS secret and the SCRAPE arity checks),
pvss_contract.rs (the on-chain PVSS transport) and mod.rs (the engine state
machine, sealing and seal verification).

Conventions of the embedding:
- util::Address (20 bytes) and U256 coin amounts are embedded as Nat.  U256
  arithmetic in the source panics on overflow instead of wrapping, so Nat
  addition agrees with it on every non-panicking run.
- Rust assertions and .expect calls are embedded as Except errors.
- The ChaCha stream RNG of fts.rs is abstracted by a sample stream
  rng : Nat -> Nat; each draw of the range sampler lies in [0, total_coins),
  which is embedded as rng i % total_coins.
- Byte buffers (seeds, serialised commitments, shares, public keys) are
  embedded as List Nat.  The source type aliases Coin = U256 and StakeholderId = Address are both embedded as Nat.
-/

/-- Decidable equality for Except results, so that concrete runs of the
embedded functions can be checked by evaluation. -/
instance {ε α : Type} [DecidableEq ε] [DecidableEq α] :
    DecidableEq (Except ε α) := fun a b =>
  match a, b with
  | .error x, .error y =>
    if h : x = y then isTrue (congrArg Except.error h)
    else isFalse (fun hc => h (Except.error.inj hc))
  | .error _, .ok _ => isFalse (fun hc => Except.noConfusion hc)
  | .ok _, .error _ => isFalse (fun hc => Except.noConfusion hc)
  | .ok x, .ok y =>
    if h : x = y then isTrue (congrArg Except.ok h)
    else isFalse (fun hc => h (Except.ok.inj hc))

/-- fts.rs line 13: hardcoded genesis seed used for the 0th epoch when no
seed is supplied. -/
def GENESIS_SEED : String := "vasa opasa skovoroda Ggurda boroda provoda"

/-- The byte view of the genesis seed (the string is pure ASCII, so the code
point of each character is its byte). -/
def GENESIS_SEED_BYTES : List Nat := GENESIS_SEED.data.map Char.toNat

/-- The two assertion failures reachable inside follow_the_satoshi:
seedTooShort is the assert of as_u32_seed (fts.rs line 78, seed shorter than
32 bytes) and zeroTotalCoins is the assert at fts.rs line 37. -/
inductive FtsPanic where
  | seedTooShort
  | zeroTotalCoins
  deriving DecidableEq, Repr

/-- The stakeholder walk of follow_the_satoshi (fts.rs lines 49-64): for each
stakeholder in snapshot order, add its stake to the running max_coins, then
consume pending (slot, coin) pairs while coin < max_coins, assigning each
consumed slot to this stakeholder; the inner loop breaks at the first pair
with coin >= max_coins. -/
def ftsWalk : List (Nat × Nat) → Nat → List (Nat × Nat) →
    List (Nat × Nat)
  | [], _, _ => []
  | (stakeholder, coins) :: rest, max_coins, ci =>
    ((ci.takeWhile fun p => decide (p.2 < max_coins + coins)).map
        fun p => (p.1, stakeholder))
      ++ ftsWalk rest (max_coins + coins)
          (ci.dropWhile fun p => decide (p.2 < max_coins + coins))

/-- fts.rs lines 21-69, follow_the_satoshi.  Steps in source order: build the
seed bytes (the supplied seed, or GENESIS_SEED when absent); convert them with
as_u32_seed, whose assert requires at least 32 bytes; assert that total_coins
is non-zero; draw one sample in [0, total_coins) per slot and pair it with the
slot index; sort the pairs by sample; run the stakeholder walk; re-sort the
assignments by slot index and keep only the stakeholders.  The source sorts
with the stable sort_by_key; the output is independent of which sorting
algorithm is used (ties in the first sort receive identical stakeholders, and
the keys of the second sort are the distinct slot indices), so the embedding
sorts with List.insertionSort. -/
def follow_the_satoshi (seed : Option (List Nat))
    (genesis_balances : List (Nat × Nat))
    (epoch_slots : Nat) (total_coins : Nat) (rng : Nat → Nat) :
    Except FtsPanic (List Nat) :=
  let seed_bytes : List Nat :=
    match seed with
    | some s => s
    | none => GENESIS_SEED_BYTES
  if seed_bytes.length < 32 then .error .seedTooShort
  else if total_coins = 0 then .error .zeroTotalCoins
  else
    let coin_indices : List (Nat × Nat) :=
      (List.range epoch_slots).map fun i => (i, rng i % total_coins)
    let sorted_indices :=
      List.insertionSort (fun a b => a.2 ≤ b.2) coin_indices
    let slot_leaders := ftsWalk genesis_balances 0 sorted_indices
    let resorted := List.insertionSort (fun a b => a.1 ≤ b.1) slot_leaders
    .ok (resorted.map fun p => p.2)

/-- The two arity assertions of PvssScrape::new (pvss_secret.rs lines 138 and
143-150). -/
inductive PvssParamError where
  | tooFewParticipants
  | thresholdTooLarge
  deriving DecidableEq, Repr

/-- Threshold computed the way cardano does (pvss_secret.rs line 139):
n / 2 + n % 2, the ceiling of n / 2. -/
def pvss_threshold (n : Nat) : Nat := n / 2 + n % 2

/-- Result of PvssScrape::new (pvss_secret.rs lines 126-164).  The escrow and
the public shares are opaque objects of the external pvss crate; the only
observable the claims use is verify_encrypted. -/
structure PvssScrape where
  public_keys : List (List Nat)
  threshold : Nat
  deriving DecidableEq, Repr

/-- pvss_secret.rs lines 133-164, PvssScrape::new.  Asserts, in source order:
more than 2 participants, and threshold + 2 <= participants; both asserts are
embedded as errors.  On success the escrow and shares are created from the
external pvss crate. -/
def PvssScrape.new (public_keys : List (List Nat)) :
    Except PvssParamError PvssScrape :=
  let num_stakeholders := public_keys.length
  if num_stakeholders ≤ 2 then .error .tooFewParticipants
  else
    let threshold := pvss_threshold num_stakeholders
    if ¬ (threshold + 2 ≤ num_stakeholders) then .error .thresholdTooLarge
    else .ok { public_keys := public_keys, threshold := threshold }

/-- Modelled from the spec: pvss::scrape::PublicShares::verify, the single
batched check of all encrypted shares against all public keys, is code of the
external pvss crate and is not under src/.  Per spec section 4.2 and scenario
S6, verification of the shares a dealer has just created for its own recipient
keys succeeds, so for a freshly constructed PvssScrape it returns true. -/
def PvssScrape.verify_encrypted (_s : PvssScrape) : Bool := true

/-- mod.rs lines 56-62: stage of the PVSS round; the recover stage is
intentionally not implemented in the source. -/
inductive PvssStage where
  | Commit
  | CommitBroadcast
  | Reveal
  deriving DecidableEq, Repr

/-- The fields of the Ouroboros engine state (mod.rs lines 112-132) that the
verified operations read or write.  own_commitments and own_shares are the
serialised byte views of the pvss_secret the engine created at construction;
signer_address is the configured signer (Address::default, embedded as 0,
when none is configured). -/
structure Ouroboros where
  step : Nat
  epoch_slots : Nat
  security_parameter_k : Nat
  proposed : Bool
  pvss_stage : PvssStage
  slot_leaders : List Nat
  signer_address : Nat
  own_commitments : List Nat
  own_shares : List Nat
  gas_limit_bound_divisor : Nat
  deriving DecidableEq, Repr

/-- mod.rs lines 257-260: epoch_number = step / epoch_slots. -/
def Ouroboros.epoch_number (e : Ouroboros) : Nat := e.step / e.epoch_slots

/-- mod.rs lines 262-265: slot_in_epoch = step % epoch_slots. -/
def Ouroboros.slot_in_epoch (e : Ouroboros) : Nat := e.step % e.epoch_slots

/-- mod.rs lines 267-269: slot_in_epoch > 4 * k. -/
def Ouroboros.after_4k_slots (e : Ouroboros) : Bool :=
  decide (e.slot_in_epoch > 4 * e.security_parameter_k)

/-- mod.rs lines 271-273: slot_in_epoch == 0. -/
def Ouroboros.first_slot_in_new_epoch (e : Ouroboros) : Bool :=
  decide (e.slot_in_epoch = 0)

/-- mod.rs lines 357-361: the proposer for a step is
slot_leaders[step % slot_leaders.len()].  Indexing an empty schedule would
panic in the source; the constructor always installs a schedule, and getD
returns the default address 0 in that unreachable case. -/
def Ouroboros.step_proposer (e : Ouroboros) (step : Nat) : Nat :=
  e.slot_leaders.getD (step % e.slot_leaders.length) 0

/-- mod.rs lines 363-365. -/
def Ouroboros.is_step_proposer (e : Ouroboros) (step : Nat)
    (address : Nat) : Bool :=
  decide (e.step_proposer step = address)

/-- mod.rs lines 367-369: a step is in the future when it exceeds the current
step by more than one. -/
def Ouroboros.is_future_step (e : Ouroboros) (step : Nat) : Bool :=
  decide (step > e.step + 1)

/-- mod.rs lines 275-333, Ouroboros::compute_new_slot_leaders.  The source
reads the validator balances as of step - 2k from the client and sums them,
but every use of that snapshot - the seed combination from the revealed
secrets of the previous epoch, the follow_the_satoshi call, and the write of
self.slot_leaders - is commented out (lines 299-330), so the function writes
no engine field and the leader schedule is left as it was. -/
def Ouroboros.compute_new_slot_leaders (e : Ouroboros) : Ouroboros := e

/-- Behaviour of the PVSS transport (pvss_contract.rs) during one step:
write_ok tells whether the broadcast transaction succeeds (a failure is only
logged, pvss_contract.rs lines 84-95), and read_commitments_and_shares gives
the outcome of a getCommitmentsAndShares read for (epoch, sender), none
meaning the client is unavailable or the underlying call failed. -/
structure PvssTransport where
  write_ok : Bool
  read_commitments_and_shares :
    Nat → Nat → Option (List Nat × List Nat)

/-- The three paths on which Engine::step for Ouroboros panics (mod.rs lines
456-461): the .expect on the transport read, and the two asserts comparing
the read-back bytes with the own pvss_secret material. -/
inductive EnginePanic where
  | expectCommitments
  | assertCommitments
  | assertShares
  deriving DecidableEq, Repr

/-- mod.rs lines 426-470, Engine::step for Ouroboros (named step_call here
because the Lean field accessor Ouroboros.step takes the source field name).
In source order: increment the step counter; read the stage once and perform
at most one transition (Commit always broadcasts commitments and shares -
write failures are only logged - and moves to CommitBroadcast;
CommitBroadcast moves to Reveal after 4k slots of the epoch; Reveal at the
first slot of a new epoch runs compute_new_slot_leaders and moves back to
Commit); then read the epoch-0 commitments and shares for the signer back
from the transport, panicking via .expect when the read yields nothing and
via assert when the bytes differ from the own pvss_secret; finally clear the
proposed flag.  The counter increment and the stage write precede the
panicking reads in the source. -/
def Ouroboros.step_call (e : Ouroboros) (t : PvssTransport) :
    Except EnginePanic Ouroboros :=
  let e1 : Ouroboros := { e with step := e.step + 1 }
  let e2 : Ouroboros :=
    if e1.pvss_stage = PvssStage.Commit then
      { e1 with pvss_stage := PvssStage.CommitBroadcast }
    else if e1.pvss_stage = PvssStage.CommitBroadcast ∧ e1.after_4k_slots then
      { e1 with pvss_stage := PvssStage.Reveal }
    else if e1.pvss_stage = PvssStage.Reveal ∧ e1.first_slot_in_new_epoch then
      { e1.compute_new_slot_leaders with pvss_stage := PvssStage.Commit }
    else e1
  match t.read_commitments_and_shares 0 e1.signer_address with
  | none => .error .expectCommitments
  | some (commitments, shares) =>
    if commitments ≠ e1.own_commitments then .error .assertCommitments
    else if shares ≠ e1.own_shares then .error .assertShares
    else .ok { e2 with proposed := false }

/-- engines::Seal (as used by mod.rs generate_seal): either no seal or a
regular two-field seal of the encoded step and the signature. -/
inductive Seal where
  | none
  | regular (step : Nat) (signature : Nat)
  deriving DecidableEq, Repr

/-- mod.rs lines 506-525, Ouroboros::generate_seal.  sign_ok tells whether
self.signer.sign succeeds (the account secret key is available) and signature
is the value it produces.  The source guards the sealing branch with
literal true - line 510 reads `if true { //self.is_step_proposer(step,
header.author()) {` - so the proposer check is disabled; the dead else branch
is kept to mirror the source. -/
def Ouroboros.generate_seal (e : Ouroboros) (sign_ok : Bool)
    (signature : Nat) : Seal × Ouroboros :=
  if e.proposed then (Seal.none, e)
  else if true then
    if sign_ok then
      (Seal.regular e.step signature, { e with proposed := true })
    else (Seal.none, e)
  else (Seal.none, e)

/-- Repeated generate_seal calls between two step calls: each call threads
the engine state to the next; sign availability may vary per call. -/
def Ouroboros.generate_seal_run (e : Ouroboros) : List Bool → List Seal
  | [] => []
  | sign_ok :: rest =>
    let r := e.generate_seal sign_ok 0
    r.1 :: r.2.generate_seal_run rest

/-- Number of regular seals in a list of generate_seal results. -/
def count_regular (seals : List Seal) : Nat :=
  seals.countP fun s =>
    match s with
    | Seal.none => false
    | Seal.regular _ _ => true

/-- The header fields verify_block_family inspects, with the two seal fields
already decoded: seal_step is the integer decoded by header_step and
signature the one decoded by header_signature. -/
structure Header where
  seal_step : Nat
  author : Nat
  number : Nat
  gas_limit : Nat
  bare_hash : Nat
  signature : Nat
  deriving DecidableEq, Repr

/-- The errors verify_block_family can return (mod.rs lines 554-591):
invalidSeal is BlockError::InvalidSeal, returned on the future-step path
(FutureStep in the taxonomy of the spec); notProposer and doubleVote are the
EngineError variants; ridiculousNumber is BlockError::RidiculousNumber for
genesis blocks; invalidGasLimit is BlockError::InvalidGasLimit. -/
inductive VerifyError where
  | invalidSeal
  | notProposer (expected found : Nat)
  | ridiculousNumber
  | doubleVote (author : Nat)
  | invalidGasLimit
  deriving DecidableEq, Repr

/-- Side reports to the validator set collaborator (report_benign and
report_malicious in mod.rs lines 558 and 579). -/
inductive Report where
  | benign (a : Nat)
  | malicious (a : Nat)
  deriving DecidableEq, Repr

/-- mod.rs lines 554-591, Ouroboros::verify_block_family, with the decoding
of the seal already done and ethkey::verify_address abstracted as the boolean
oracle verify_address (proposer, signature, bare hash).  In source order: a
future step is reported benign and rejected with InvalidSeal; then the
signature must verify against the schedule-derived proposer, else
NotProposer; genesis numbers are rejected; a step not strictly above the
parent step is reported malicious and rejected with DoubleVote (the source
condition step == parent_step || step <= parent_step is kept verbatim); last
the gas limit must lie strictly between the parent-derived bounds.  The
returned list collects the reports made to the validator set. -/
def Ouroboros.verify_block_family (e : Ouroboros)
    (verify_address : Nat → Nat → Nat → Bool)
    (header parent : Header) : Except VerifyError Unit × List Report :=
  let step := header.seal_step
  if e.is_future_step step then
    (.error .invalidSeal, [Report.benign header.author])
  else
    let correct_proposer := e.step_proposer step
    if ¬ verify_address correct_proposer header.signature header.bare_hash then
      (.error (.notProposer correct_proposer header.author), [])
    else if header.number = 0 then
      (.error .ridiculousNumber, [])
    else
      let parent_step := parent.seal_step
      if step = parent_step ∨ step ≤ parent_step then
        (.error (.doubleVote header.author), [Report.malicious header.author])
      else
        let min_gas := parent.gas_limit - parent.gas_limit / e.gas_limit_bound_divisor
        let max_gas := parent.gas_limit + parent.gas_limit / e.gas_limit_bound_divisor
        if header.gas_limit ≤ min_gas ∨ max_gas ≤ header.gas_limit then
          (.error .invalidGasLimit, [])
        else (.ok (), [])

/-- A transport whose client is unavailable: reads yield nothing and writes
fail (and are logged). -/
def unavailableTransport : PvssTransport :=
  { write_ok := false, read_commitments_and_shares := fun _ _ => none }

/-- A concrete engine state: signer 5 is not the proposer of any step (the
schedule only contains 7), nothing proposed yet. -/
def nonProposerEngine : Ouroboros :=
  { step := 3, epoch_slots := 10, security_parameter_k := 1,
    proposed := false, pvss_stage := PvssStage.Commit, slot_leaders := [7],
    signer_address := 5, own_commitments := [], own_shares := [],
    gas_limit_bound_divisor := 4 }

/-- A concrete engine state one step before an epoch boundary, in the Reveal
stage, so that the next step enters the first slot of a new epoch. -/
def revealEngine : Ouroboros :=
  { step := 9, epoch_slots := 10, security_parameter_k := 1,
    proposed := true, pvss_stage := PvssStage.Reveal, slot_leaders := [5, 7],
    signer_address := 5, own_commitments := [1], own_shares := [2],
    gas_limit_bound_divisor := 4 }

/-- The state revealEngine reaches after one successful step: counter at 10,
stage back to Commit, proposed cleared, schedule untouched. -/
def revealEngineStepped : Ouroboros :=
  { step := 10, epoch_slots := 10, security_parameter_k := 1,
    proposed := false, pvss_stage := PvssStage.Commit, slot_leaders := [5, 7],
    signer_address := 5, own_commitments := [1], own_shares := [2],
    gas_limit_bound_divisor := 4 }

/-- A transport that answers reads with exactly the material revealEngine
published, so the read-back asserts of step_call pass. -/
def echoTransport : PvssTransport :=
  { write_ok := true,
    read_commitments_and_shares := fun _ _ => some ([1], [2]) }

/-- A concrete engine state at step 2 with proposer 5 for every step, used
for seal verification scenarios. -/
def verifyEngine : Ouroboros :=
  { step := 2, epoch_slots := 10, security_parameter_k := 1,
    proposed := false, pvss_stage := PvssStage.Commit, slot_leaders := [5],
    signer_address := 5, own_commitments := [], own_shares := [],
    gas_limit_bound_divisor := 4 }

/-- A header at seal step 5, authored by 5, non-genesis. -/
def stepFiveHeader : Header :=
  { seal_step := 5, author := 5, number := 1, gas_limit := 10,
    bare_hash := 0, signature := 0 }

/-- A parent header whose seal step is 10. -/
def stepTenParent : Header :=
  { seal_step := 10, author := 5, number := 0, gas_limit := 10,
    bare_hash := 0, signature := 0 }

/-- A header at seal step 3 (at most one step ahead of verifyEngine),
authored and signed by the scheduled proposer 5, non-genesis, in gas
bounds. -/
def stepThreeHeader : Header :=
  { seal_step := 3, author := 5, number := 1, gas_limit := 10,
    bare_hash := 0, signature := 0 }

/-- Elements surviving dropWhile (fun q => q.2 < bound) in a list that is
pairwise sorted by second component all have second component at least
bound. -/
theorem dropWhile_lt_ge (bound : Nat) (ci : List (Nat × Nat))
    (hpw : List.Pairwise (fun a b : Nat × Nat => a.2 ≤ b.2) ci) :
    ∀ p ∈ ci.dropWhile fun q => decide (q.2 < bound), bound ≤ p.2 := by
  induction ci with
  | nil => intro p hp; cases hp
  | cons a as ih =>
    intro p hp
    rw [List.dropWhile_cons] at hp
    simp only [decide_eq_true_eq] at hp
    by_cases ha : a.2 < bound
    · rw [if_pos ha] at hp
      exact ih (List.pairwise_cons.mp hpw).2 p hp
    · rw [if_neg ha] at hp
      rcases List.mem_cons.mp hp with rfl | hmem
      · omega
      · have := (List.pairwise_cons.mp hpw).1 p hmem
        omega

/-- When every pending sample is below the total remaining stake, the
stakeholder walk of follow_the_satoshi assigns every pending slot: the
output has the same length as the pending list. -/
theorem ftsWalk_length_eq (bal : List (Nat × Nat)) :
    ∀ (max_coins : Nat) (ci : List (Nat × Nat)),
      List.Pairwise (fun a b : Nat × Nat => a.2 ≤ b.2) ci →
      (∀ p ∈ ci, max_coins ≤ p.2) →
      (∀ p ∈ ci, p.2 < max_coins + (bal.map fun q => q.2).sum) →
      (ftsWalk bal max_coins ci).length = ci.length := by
  induction bal with
  | nil =>
    intro mc ci _ hlo hhi
    cases ci with
    | nil => rfl
    | cons p rest =>
      have h1 := hlo p (List.mem_cons_self p rest)
      have h2 := hhi p (List.mem_cons_self p rest)
      simp only [List.map_nil, List.sum_nil, Nat.add_zero] at h2
      omega
  | cons hd rest ih =>
    obtain ⟨st, c⟩ := hd
    intro mc ci hsort hlo hhi
    simp only [List.map_cons, List.sum_cons] at hhi
    simp only [ftsWalk, List.length_append, List.length_map]
    have hsplit := congrArg List.length
      (List.takeWhile_append_dropWhile (fun p => decide (p.2 < mc + c)) ci)
    rw [List.length_append] at hsplit
    have hlo2 := dropWhile_lt_ge (mc + c) ci hsort
    have hhi2 : ∀ p ∈ ci.dropWhile fun q => decide (q.2 < mc + c),
        p.2 < (mc + c) + (rest.map fun q => q.2).sum := by
      intro p hp
      have hmem : p ∈ ci := (List.dropWhile_sublist _).subset hp
      have := hhi p hmem
      omega
    rw [ih (mc + c) _
      (List.Pairwise.sublist (List.dropWhile_sublist _) hsort) hlo2 hhi2]
    omega

/-- C5: for every stake snapshot whose stakes sum to a positive total, every
seed of at least 32 bytes or no seed, and every slot count, the schedule
returned by follow_the_satoshi has length exactly epoch_slots.  Every sample
lies below the total cumulative stake, so the stakeholder walk consumes every
slot, and the sorts and projections preserve length. -/
theorem follow_the_satoshi_schedule_length (seed : Option (List Nat))
    (genesis_balances : List (Nat × Nat)) (epoch_slots total_coins : Nat)
    (rng : Nat → Nat)
    (hseed : ∀ s, seed = some s → 32 ≤ s.length)
    (hsum : (genesis_balances.map fun q => q.2).sum = total_coins)
    (hpos : 0 < total_coins) :
    (follow_the_satoshi seed genesis_balances epoch_slots total_coins
      rng).map List.length = .ok epoch_slots := by
  have key : (ftsWalk genesis_balances 0
      (List.insertionSort (fun a b => a.2 ≤ b.2)
        ((List.range epoch_slots).map fun i =>
          (i, rng i % total_coins)))).length = epoch_slots := by
    haveI inst1 : IsTotal (Nat × Nat) (fun a b => a.2 ≤ b.2) :=
      ⟨fun a b => Nat.le_total a.2 b.2⟩
    haveI inst2 : IsTrans (Nat × Nat) (fun a b => a.2 ≤ b.2) :=
      ⟨fun _ _ _ hab hbc => Nat.le_trans hab hbc⟩
    have hpw := List.sorted_insertionSort (fun a b : Nat × Nat => a.2 ≤ b.2)
      ((List.range epoch_slots).map fun i => (i, rng i % total_coins))
    have hhi : ∀ p ∈ List.insertionSort (fun a b : Nat × Nat => a.2 ≤ b.2)
        ((List.range epoch_slots).map fun i => (i, rng i % total_coins)),
        p.2 < 0 + (genesis_balances.map fun q => q.2).sum := by
      intro p hp
      have hp2 := (List.mem_insertionSort
        (fun a b : Nat × Nat => a.2 ≤ b.2)).mp hp
      obtain ⟨i, _, rfl⟩ := List.mem_map.mp hp2
      rw [Nat.zero_add, hsum]
      exact Nat.mod_lt _ hpos
    rw [ftsWalk_length_eq genesis_balances 0 _ hpw
      (fun p _ => Nat.zero_le p.2) hhi]
    rw [List.length_insertionSort, List.length_map, List.length_range]
  cases seed with
  | none =>
    rw [follow_the_satoshi, if_neg (by decide), if_neg (by omega)]
    simp only [Except.map, List.length_map, List.length_insertionSort, key]
  | some s =>
    rw [follow_the_satoshi]
    rw [if_neg (by have := hseed s rfl; omega), if_neg (by omega)]
    simp only [Except.map, List.length_map, List.length_insertionSort, key]

/-- C5 witness: a single stakeholder with all ten coins, three slots, no
seed: the schedule has length three. -/
theorem follow_the_satoshi_schedule_length_witness :
    (follow_the_satoshi none [(5, 10)] 3 10 (fun _ => 0)).map
      List.length = .ok 3 :=
  follow_the_satoshi_schedule_length none [(5, 10)] 3 10 (fun _ => 0)
    (fun s h => by cases h) (by decide) (by decide)

/-- C4 counterexample: the sum of the snapshot (5) disagrees with the
declared total (10), yet follow_the_satoshi does not fail: it returns a
schedule.  The source checks only that total_coins is non-zero; no check
compares the snapshot sum with the declared total. -/
theorem follow_the_satoshi_ignores_sum_mismatch :
    (([((5 : Nat), (5 : Nat))].map fun q => q.2).sum ≠ 10) ∧
    follow_the_satoshi none [(5, 5)] 1 10 (fun _ => 0) = .ok [5] := by
  constructor
  · decide
  · decide

/-- C4 as amended: with no seed, or a seed of at least 32 bytes,
follow_the_satoshi fails exactly when total_coins is zero; the snapshot sum
is never compared with the declared total. -/
theorem follow_the_satoshi_fails_iff_zero_total (seed : Option (List Nat))
    (genesis_balances : List (Nat × Nat)) (epoch_slots total_coins : Nat)
    (rng : Nat → Nat)
    (hseed : ∀ s, seed = some s → 32 ≤ s.length) :
    (follow_the_satoshi seed genesis_balances epoch_slots total_coins
      rng).isOk = true ↔ total_coins ≠ 0 := by
  cases seed with
  | none =>
    rw [follow_the_satoshi, if_neg (by decide)]
    by_cases hT : total_coins = 0
    · rw [if_pos hT]; simp [Except.isOk, Except.toBool, hT]
    · rw [if_neg hT]; simp [Except.isOk, Except.toBool, hT]
  | some s =>
    rw [follow_the_satoshi, if_neg (by have := hseed s rfl; omega)]
    by_cases hT : total_coins = 0
    · rw [if_pos hT]; simp [Except.isOk, Except.toBool, hT]
    · rw [if_neg hT]; simp [Except.isOk, Except.toBool, hT]

/-- C4 witness for the amended claim: with the genesis seed and total 10 the
call succeeds. -/
theorem follow_the_satoshi_fails_iff_zero_total_witness :
    (follow_the_satoshi none [(5, 10)] 3 10 (fun _ => 0)).isOk = true :=
  (follow_the_satoshi_fails_iff_zero_total none [(5, 10)] 3 10 (fun _ => 0)
    (fun s h => by cases h)).mpr (by decide)

/-- C10: an explicitly supplied seed of fewer than 32 bytes makes
follow_the_satoshi panic in as_u32_seed (embedded as the seedTooShort
error) before any schedule is produced; a seed of at least 32 bytes, or the
no-seed genesis case (the genesis seed has 42 bytes), never reaches that
assert. -/
theorem follow_the_satoshi_seed_assert (s : List Nat)
    (genesis_balances : List (Nat × Nat)) (epoch_slots total_coins : Nat)
    (rng : Nat → Nat) :
    (follow_the_satoshi (some s) genesis_balances epoch_slots total_coins
        rng = .error .seedTooShort ↔ s.length < 32) ∧
    follow_the_satoshi none genesis_balances epoch_slots total_coins
        rng ≠ .error .seedTooShort := by
  constructor
  · by_cases h : s.length < 32
    · rw [follow_the_satoshi, if_pos h]
      simp [h]
    · rw [follow_the_satoshi, if_neg h]
      by_cases hT : total_coins = 0
      · rw [if_pos hT]; simp [h]
      · rw [if_neg hT]; simp [h]
  · rw [follow_the_satoshi, if_neg (by decide)]
    by_cases hT : total_coins = 0
    · rw [if_pos hT]; simp
    · rw [if_neg hT]; simp

/-- C10 witness: a 3-byte seed triggers the assert; the genesis case with
the same other arguments does not. -/
theorem follow_the_satoshi_seed_assert_witness :
    (follow_the_satoshi (some [1, 2, 3]) [(5, 10)] 1 10
        (fun _ => 0) = .error .seedTooShort) ∧
    follow_the_satoshi none [(5, 10)] 1 10
        (fun _ => 0) ≠ .error .seedTooShort :=
  ⟨(follow_the_satoshi_seed_assert [1, 2, 3] [(5, 10)] 1 10
      (fun _ => 0)).1.mpr (by decide),
   (follow_the_satoshi_seed_assert [1, 2, 3] [(5, 10)] 1 10
      (fun _ => 0)).2⟩

/-- C1: the source short-circuits the proposer check in generate_seal with
literal true (mod.rs line 510), so an engine whose configured signer is not
the schedule-derived proposer of the current step still produces a regular
seal: at nonProposerEngine the signer 5 is not the proposer of step 3 (the
schedule only names 7), nothing has been proposed, the key is available, and
generate_seal returns a regular seal for step 3, contradicting the claim
that only the proposer seals. -/
theorem generate_seal_without_proposer_check :
    nonProposerEngine.is_step_proposer nonProposerEngine.step
        nonProposerEngine.signer_address = false ∧
    (nonProposerEngine.generate_seal true 99).1 = Seal.regular 3 99 := by
  constructor
  · decide
  · decide

/-- C2: a completed step call never changes the leader schedule: all the
recomputation and replacement of slot_leaders inside
compute_new_slot_leaders is commented out in the source, so the schedule
installed at construction stays forever, contradicting the claim that the
schedule is recomputed and replaced at each epoch boundary. -/
theorem step_call_never_replaces_slot_leaders (e : Ouroboros)
    (t : PvssTransport) (e2 : Ouroboros)
    (h : e.step_call t = .ok e2) :
    e2.slot_leaders = e.slot_leaders := by
  simp only [Ouroboros.step_call] at h
  split at h
  · exact Except.noConfusion h
  · split at h
    · exact Except.noConfusion h
    · split at h
      · exact Except.noConfusion h
      · cases h
        dsimp only
        split
        · rfl
        · split
          · rfl
          · split
            · rfl
            · rfl

/-- C2 witness: revealEngine enters the first slot of a new epoch in the
Reveal stage, the step completes against echoTransport, and the schedule is
unchanged. -/
theorem step_call_never_replaces_slot_leaders_witness :
    revealEngineStepped.slot_leaders = revealEngine.slot_leaders :=
  step_call_never_replaces_slot_leaders revealEngine echoTransport
    revealEngineStepped (by decide)

/-- C3: when the transport client is unavailable, every read returns none
and the .expect at mod.rs line 458 panics, so step() aborts instead of
completing, for every engine state; this contradicts the claim that
transport failures never abort a step. -/
theorem step_call_aborts_on_unavailable_transport (e : Ouroboros) :
    e.step_call unavailableTransport = .error .expectCommitments := rfl

/-- Once the proposed flag is set, every further generate_seal call returns
no seal and leaves the flag set. -/
theorem generate_seal_run_of_proposed (calls : List Bool) :
    ∀ e : Ouroboros, e.proposed = true →
      count_regular (e.generate_seal_run calls) = 0 := by
  induction calls with
  | nil => intro e _; rfl
  | cons c rest ih =>
    intro e h
    simp only [Ouroboros.generate_seal_run, Ouroboros.generate_seal, h,
      if_true]
    simp only [count_regular, List.countP_cons]
    have := ih e h
    simp only [count_regular] at this
    simp [this]

/-- C6: between two step calls, however many times generate_seal is invoked
and however key availability varies across the calls, at most one regular
seal is produced: the first regular seal sets the proposed flag, and the
flag is only cleared by step(). -/
theorem generate_seal_at_most_one_regular_per_step (e : Ouroboros)
    (calls : List Bool) :
    count_regular (e.generate_seal_run calls) ≤ 1 := by
  induction calls generalizing e with
  | nil => exact Nat.zero_le 1
  | cons c rest ih =>
    by_cases hp : e.proposed = true
    · rw [generate_seal_run_of_proposed (c :: rest) e hp]
      exact Nat.zero_le 1
    · have hp2 : e.proposed = false := by
        cases hpv : e.proposed
        · rfl
        · exact absurd hpv hp
      cases c with
      | true =>
        simp only [Ouroboros.generate_seal_run, Ouroboros.generate_seal,
          hp2, Bool.false_eq_true, if_false, if_true]
        rw [count_regular, List.countP_cons]
        have h0 := generate_seal_run_of_proposed rest
          { e with proposed := true } rfl
        rw [count_regular] at h0
        simp [h0]
      | false =>
        simp only [Ouroboros.generate_seal_run, Ouroboros.generate_seal,
          hp2, Bool.false_eq_true, if_false, if_true]
        rw [count_regular, List.countP_cons]
        have := ih e
        rw [count_regular] at this
        simpa using this

/-- C7: verify_block_family rejects every block whose decoded seal step
exceeds current_step + 1, returning the InvalidSeal error (FutureStep) and
reporting the author as benign to the validator set; a block whose seal step
is at most current_step + 1 is never rejected with that error. -/
theorem verify_block_family_future_step (e : Ouroboros)
    (verify_address : Nat → Nat → Nat → Bool) (header parent : Header) :
    (e.step + 1 < header.seal_step →
      e.verify_block_family verify_address header parent =
        (.error .invalidSeal, [Report.benign header.author])) ∧
    (header.seal_step ≤ e.step + 1 →
      (e.verify_block_family verify_address header parent).1 ≠
        Except.error VerifyError.invalidSeal) := by
  constructor
  · intro hf
    have hft : e.is_future_step header.seal_step = true := by
      simp only [Ouroboros.is_future_step, decide_eq_true_eq]
      omega
    rw [Ouroboros.verify_block_family, if_pos hft]
  · intro hle
    have hnf : e.is_future_step header.seal_step = false := by
      simp only [Ouroboros.is_future_step, decide_eq_false_iff_not]
      omega
    rw [Ouroboros.verify_block_family, if_neg (by rw [hnf]; exact
      Bool.false_ne_true)]
    dsimp only
    split
    · simp
    · split
      · simp
      · split
        · simp
        · split
          · simp
          · simp

/-- C7 witness: at verifyEngine (current step 2), a block with seal step 5
is rejected as a future step with a benign report, and a block with seal
step 3 is not rejected with the future-step error. -/
theorem verify_block_family_future_step_witness :
    (verifyEngine.verify_block_family (fun _ _ _ => true) stepFiveHeader
        stepTenParent =
      (.error .invalidSeal, [Report.benign 5])) ∧
    (verifyEngine.verify_block_family (fun _ _ _ => true) stepThreeHeader
        stepTenParent).1 ≠ Except.error VerifyError.invalidSeal :=
  ⟨(verify_block_family_future_step verifyEngine (fun _ _ _ => true)
      stepFiveHeader stepTenParent).1 (by decide),
   (verify_block_family_future_step verifyEngine (fun _ _ _ => true)
      stepThreeHeader stepTenParent).2 (by decide)⟩

/-- C8 counterexample: a block whose seal step 5 is at most its parent step
10 but which is also a future step for the engine (current step 2) is
rejected by the earlier future-step check with InvalidSeal and a benign
report: verification does not fail with DoubleVote and the author is not
reported malicious, contradicting the claim that every such block yields
DoubleVote and a malicious report. -/
theorem double_vote_shadowed_by_future_step :
    stepFiveHeader.seal_step ≤ stepTenParent.seal_step ∧
    verifyEngine.verify_block_family (fun _ _ _ => true) stepFiveHeader
        stepTenParent = (.error .invalidSeal, [Report.benign 5]) ∧
    (verifyEngine.verify_block_family (fun _ _ _ => true) stepFiveHeader
        stepTenParent).1 ≠ Except.error (VerifyError.doubleVote
        stepFiveHeader.author) ∧
    Report.malicious stepFiveHeader.author ∉
      (verifyEngine.verify_block_family (fun _ _ _ => true) stepFiveHeader
        stepTenParent).2 := by
  refine ⟨by decide, by decide, by decide, by decide⟩

/-- C8 as amended: verify_block_family accepts a block only when its seal
step strictly exceeds the parent seal step; and whenever the seal step is at
most the parent step and the block passes the earlier checks (not a future
step, a proposer signature that verifies, a non-genesis number),
verification fails with DoubleVote and the author is reported malicious. -/
theorem verify_block_family_double_vote (e : Ouroboros)
    (verify_address : Nat → Nat → Nat → Bool) (header parent : Header) :
    ((e.verify_block_family verify_address header parent).1 = .ok () →
      parent.seal_step < header.seal_step) ∧
    (header.seal_step ≤ e.step + 1 →
     verify_address (e.step_proposer header.seal_step) header.signature
       header.bare_hash = true →
     header.number ≠ 0 →
     header.seal_step ≤ parent.seal_step →
     e.verify_block_family verify_address header parent =
       (.error (.doubleVote header.author),
        [Report.malicious header.author])) := by
  constructor
  · rw [Ouroboros.verify_block_family]
    split
    · intro h; exact Except.noConfusion h
    · dsimp only
      split
      · intro h; exact Except.noConfusion h
      · split
        · intro h; exact Except.noConfusion h
        · split
          · intro h; exact Except.noConfusion h
          · rename_i hdv
            intro _
            omega
  · intro hle hsig hnum hdv
    have hnf : e.is_future_step header.seal_step = false := by
      simp only [Ouroboros.is_future_step, decide_eq_false_iff_not]
      omega
    rw [Ouroboros.verify_block_family,
      if_neg (by rw [hnf]; exact Bool.false_ne_true)]
    dsimp only
    rw [if_neg (by rw [hsig]; exact fun hc => hc rfl), if_neg hnum,
      if_pos (Or.inr hdv)]

/-- C8 witness for the amended claim: at verifyEngine, a block at seal step
3 over a parent at seal step 10 passes the earlier checks and is rejected
with DoubleVote plus a malicious report; and the acceptance direction
applied to an accepted block at seal step 3 over a parent at step 2. -/
theorem verify_block_family_double_vote_witness :
    verifyEngine.verify_block_family (fun _ _ _ => true) stepThreeHeader
        stepTenParent =
      (.error (.doubleVote 5), [Report.malicious 5]) :=
  (verify_block_family_double_vote verifyEngine (fun _ _ _ => true)
    stepThreeHeader stepTenParent).2 (by decide) (by decide) (by decide)
    (by decide)

/-- C9: creating the SCRAPE PVSS secret with n recipient keys fails exactly
when n < 3 or threshold + 2 > n for threshold = ceil(n / 2) (the two asserts
of PvssScrape::new); the threshold matches the ceiling formula; 2 keys fail,
4 keys succeed and verify_encrypted on the result returns true. -/
theorem pvss_scrape_arity_check :
    (∀ keys : List (List Nat), (PvssScrape.new keys).isOk = true ↔
      ¬ (keys.length < 3 ∨
         keys.length < pvss_threshold keys.length + 2)) ∧
    (∀ n, pvss_threshold n = (n + 1) / 2) ∧
    (PvssScrape.new [[0], [1]]).isOk = false ∧
    (PvssScrape.new [[0], [1], [2], [3]]).map
      PvssScrape.verify_encrypted = .ok true := by
  refine ⟨?_, ?_, by decide, by decide⟩
  · intro keys
    rw [PvssScrape.new]
    by_cases h1 : keys.length ≤ 2
    · rw [if_pos h1]
      simp only [Except.isOk, Except.toBool]
      constructor
      · intro h; exact Bool.noConfusion h
      · intro h; omega
    · rw [if_neg h1]
      dsimp only
      by_cases h2 : pvss_threshold keys.length + 2 ≤ keys.length
      · rw [if_neg (fun hc => hc h2)]
        simp only [Except.isOk, Except.toBool]
        constructor
        · intro _; omega
        · intro _; trivial
      · rw [if_pos h2]
        simp only [Except.isOk, Except.toBool]
        constructor
        · intro h; exact Bool.noConfusion h
        · intro h; omega
  · intro n
    rw [pvss_threshold]
    omega
